import Mathlib

/-!
Shallow embedding of the "Upload Service" (src/app.py): a Flask app with an
upload endpoint, a gallery endpoint and a health endpoint over an Azure blob
container.  Request handlers are modelled as pure functions from the request
data and the outcome of the (external) object-store call to the HTTP response
together with the list of store operations the handler performed.
-/

/-! ### Configuration (src/app.py lines 12-15) -/

/-- Default of the env option STORAGE_ACCOUNT_URL (line 13). -/
def STORAGE_ACCOUNT_URL : String := "https://lanvyp.blob.core.windows.net"

/-- Default of the env option IMAGES_CONTAINER (line 14). -/
def CONTAINER_NAME : String := "lanternfly-images"

/-- MAX_FILE_SIZE = 10 * 1024 * 1024 (line 15), installed as Flask's
MAX_CONTENT_LENGTH (line 22). -/
def MAX_FILE_SIZE : Nat := 10 * 1024 * 1024

/-- The container client's `url` property: `{account url}/{container name}`. -/
def container_url : String := STORAGE_ACCOUNT_URL ++ "/" ++ CONTAINER_NAME

/-! ### werkzeug.utils.secure_filename

The upload handler calls werkzeug's `secure_filename` (app.py line 32).  On a
POSIX host (os.sep = '/', os.path.altsep = None, os.name ≠ 'nt') it is:
normalize NFKD and encode to ASCII ignoring errors, replace '/' by ' ',
`"_".join(filename.split())`, delete every character not matching
`[A-Za-z0-9_.-]`, and finally `.strip("._")`.  The NFKD/ASCII step is modelled
as dropping every non-ASCII character; this is exact on ASCII input (NFKD is
the identity there), while real werkzeug transliterates many non-ASCII
characters to ASCII before the drop (for example ü to u, é to e, the
circled digit ① to 1), so statements about non-ASCII filenames are made only
where the conclusion is insensitive to the difference, and the C9 amendment
is stated for ASCII filenames only. -/

/-- Characters Python's `str.split()` splits on (all ASCII whitespace; after
the ASCII-encode step only ASCII characters remain). -/
def isPyWs (c : Char) : Bool :=
  c == ' ' || c == '\t' || c == '\n' || c == '\r' || c == '\x0b' || c == '\x0c'

/-- The character class `[A-Za-z0-9_.-]` of werkzeug's
`_filename_ascii_strip_re` (its complement is deleted). -/
def isSafeKeyChar (c : Char) : Bool :=
  (decide (65 ≤ c.toNat) && decide (c.toNat ≤ 90)) ||
  (decide (97 ≤ c.toNat) && decide (c.toNat ≤ 122)) ||
  (decide (48 ≤ c.toNat) && decide (c.toNat ≤ 57)) ||
  c == '_' || c == '.' || c == '-'

/-- The character set of Python's `.strip("._")`. -/
def isDotOrUnderscore (c : Char) : Bool := c == '.' || c == '_'

/-- Python's `.strip("._")`: remove leading and trailing '.' and '_'. -/
def stripDotsUnderscores (l : List Char) : List Char :=
  ((l.dropWhile isDotOrUnderscore).reverse.dropWhile isDotOrUnderscore).reverse

/-- Python's `str.split()` (no separator): maximal runs of non-whitespace,
equivalently splitting at every whitespace character and discarding the empty
pieces. -/
def pySplit (l : List Char) : List (List Char) :=
  (l.splitOnP isPyWs).filter (fun w => !w.isEmpty)

/-- The body of werkzeug's `secure_filename`, on the character list. -/
def secureFilenameChars (l : List Char) : List Char :=
  let ascii := l.filter (fun c => decide (c.toNat ≤ 127))
  let nosep := ascii.map (fun c => if c == '/' then ' ' else c)
  let joined := List.intercalate [ '_' ] (pySplit nosep)
  stripDotsUnderscores (joined.filter isSafeKeyChar)

/-- werkzeug.utils.secure_filename (POSIX; the Windows device-file branch is
dead since os.name ≠ 'nt'). -/
def secure_filename (filename : String) : String :=
  String.mk (secureFilenameChars filename.data)

/-! ### is_allowed_file (app.py lines 24-27) -/

/-- ALLOWED_EXTENSIONS (line 26). -/
def ALLOWED_EXTENSIONS : List String := ["png", "jpg", "jpeg", "gif", "bmp", "webp", "tiff"]

/-- The text after the last '.' of the list, `none` when no '.' occurs:
`filename.rsplit('.', 1)[1]` guarded by `'.' in filename`. -/
def afterLastDot : List Char → Option (List Char)
  | [] => none
  | c :: rest =>
    match afterLastDot rest with
    | some t => some t
    | none => if c == '.' then some rest else none

/-- Python's `.lower()`, per character.  `Char.toLower` lowercases exactly the
ASCII range; the extension is only ever compared with ASCII strings, and no
non-ASCII character lowercases onto the letters of the allowed extensions, so
the membership test below agrees with Python's. -/
def lowerString (l : List Char) : String := String.mk (l.map Char.toLower)

/-- is_allowed_file: `'.' in filename and
filename.rsplit('.', 1)[1].lower() in ALLOWED_EXTENSIONS`. -/
def is_allowed_file (filename : String) : Bool :=
  match afterLastDot filename.data with
  | none => false
  | some ext => ALLOWED_EXTENSIONS.contains (lowerString ext)

/-! ### generate_blob_name (app.py lines 29-33) -/

/-- A UTC wall-clock reading, as `datetime.utcnow()` delivers it. -/
structure Timestamp where
  year : Nat
  month : Nat
  day : Nat
  hour : Nat
  minute : Nat
  second : Nat

/-- The field ranges `datetime.utcnow()` guarantees, restricted to four-digit
years (for which `strftime('%Y')` zero-pads to exactly four digits on every
platform; the service's lifetime lies well inside 1000-9999). -/
def Timestamp.valid (t : Timestamp) : Prop :=
  1000 ≤ t.year ∧ t.year ≤ 9999 ∧ 1 ≤ t.month ∧ t.month ≤ 12 ∧
  1 ≤ t.day ∧ t.day ≤ 31 ∧ t.hour ≤ 23 ∧ t.minute ≤ 59 ∧ t.second ≤ 59

/-- The decimal digit character of `n % 10`. -/
def digitChar (n : Nat) : Char :=
  match n % 10 with
  | 0 => '0' | 1 => '1' | 2 => '2' | 3 => '3' | 4 => '4'
  | 5 => '5' | 6 => '6' | 7 => '7' | 8 => '8' | _ => '9'

/-- Two-digit zero-padded decimal, as `%m %d %H %M %S` render their (≤ 99)
fields. -/
def pad2 (n : Nat) : List Char := [digitChar (n / 10), digitChar n]

/-- Four-digit zero-padded decimal, as `%Y` renders a year in 1000-9999. -/
def pad4 (n : Nat) : List Char :=
  [digitChar (n / 1000), digitChar (n / 100), digitChar (n / 10), digitChar n]

/-- `datetime.utcnow().strftime('%Y%m%dT%H%M%S')` (line 31). -/
def strftime_compact (t : Timestamp) : String :=
  String.mk (pad4 t.year ++ pad2 t.month ++ pad2 t.day ++ 'T' ::
    (pad2 t.hour ++ pad2 t.minute ++ pad2 t.second))

/-- generate_blob_name: `f"{timestamp}-{safe_filename}"` (lines 29-33), with
the wall-clock reading made an explicit argument. -/
def generate_blob_name (now : Timestamp) (original_filename : String) : String :=
  strftime_compact now ++ "-" ++ secure_filename original_filename

/-- Decides the regular expression `^\d{8}T\d{6}-.+$` (with `.` matching any
character, `re.DOTALL`-style, so that `.+` is just nonemptiness). -/
def matchesKeyPattern (s : String) : Bool :=
  match s.data with
  | d1 :: d2 :: d3 :: d4 :: d5 :: d6 :: d7 :: d8 :: t ::
      h1 :: h2 :: m1 :: m2 :: s1 :: s2 :: dash :: rest =>
    (d1.isDigit && d2.isDigit && d3.isDigit && d4.isDigit &&
     d5.isDigit && d6.isDigit && d7.isDigit && d8.isDigit) &&
    (t == 'T') &&
    (h1.isDigit && h2.isDigit && m1.isDigit && m2.isDigit && s1.isDigit && s2.isDigit) &&
    (dash == '-') && !rest.isEmpty
  | _ => false

/-! ### Requests, responses and the store -/

/-- One part of the multipart form: werkzeug FileStorage.  `content_type` is
`none` when the part declares no content type. -/
structure FilePart where
  filename : String
  content_type : Option String
  content : List Nat

/-- The upload request: `request.files` either holds the field 'file' or not. -/
structure UploadRequest where
  file : Option FilePart

/-- The operations the Azure SDK could perform on the container, as the
handlers invoke them.  `deleteBlob` exists in the SDK but is never emitted by
this service. -/
inductive StoreOp
  | put (key : String) (content : List Nat) (contentType : String)
  | listBlobs
  | getProperties
  | deleteBlob (key : String)
deriving DecidableEq

/-- Body of an upload response: `{ok:false, error:e}` or `{ok:true, url:u}`. -/
inductive UploadBody
  | failure (error : String)
  | success (url : String)
deriving DecidableEq

/-- An upload response: HTTP status plus JSON body. -/
structure UploadResponse where
  status : Nat
  body : UploadBody
deriving DecidableEq

/-- Check 4 of the pipeline passes iff
`f.content_type and f.content_type.startswith('image/')` (line 57): the
declared content type is present, non-empty, and begins with the characters
"image/". -/
def content_type_is_image : Option String → Bool
  | none => false
  | some ct => !(ct == "") && List.isPrefixOf "image/".data ct.data

/-- The blob store: keys to (bytes, content-type); a finite map, kept as an
association list with at most one entry per key. -/
abbrev BlobStore := List (String × (List Nat × String))

/-- `upload_blob(..., overwrite=True)`: the new blob replaces any blob stored
under the same key. -/
def putBlob (s : BlobStore) (key : String) (content : List Nat)
    (contentType : String) : BlobStore :=
  (key, (content, contentType)) :: s.filter (fun e => !(e.1 == key))

/-- Effect of a trace of store operations on the store.  Listing and the
properties probe read only; delete would remove a key. -/
def runOps (s : BlobStore) : List StoreOp → BlobStore
  | [] => s
  | StoreOp.put k c ct :: rest => runOps (putBlob s k c ct) rest
  | StoreOp.deleteBlob k :: rest => runOps (s.filter (fun e => !(e.1 == k))) rest
  | StoreOp.listBlobs :: rest => runOps s rest
  | StoreOp.getProperties :: rest => runOps s rest

/-! ### The upload handler (app.py lines 39-84)

`ccUrl` is the container client's `url` property, `now` the wall clock at
`generate_blob_name`, and `putOutcome` tells whether `upload_blob` returns or
raises (with the raised exception's string).  The second component is the
list of store calls the handler performed. -/

/-- The upload handler. -/
def upload (ccUrl : String) (req : UploadRequest) (now : Timestamp)
    (putOutcome : Except String Unit) : UploadResponse × List StoreOp :=
  match req.file with
  | none => (⟨400, UploadBody.failure "No file provided"⟩, [])
  | some f =>
    if f.filename == "" then
      (⟨400, UploadBody.failure "No file selected"⟩, [])
    else if !(is_allowed_file f.filename) then
      (⟨400, UploadBody.failure "Invalid file type. Only image files allowed."⟩, [])
    else if !(content_type_is_image f.content_type) then
      (⟨400, UploadBody.failure "File must be an image"⟩, [])
    else
      let blob_name := generate_blob_name now f.filename
      let ops := [StoreOp.put blob_name f.content (f.content_type.getD "")]
      match putOutcome with
      | Except.error e => (⟨500, UploadBody.failure e⟩, ops)
      | Except.ok _ => (⟨200, UploadBody.success (ccUrl ++ "/" ++ blob_name)⟩, ops)

/-- The transport layer in front of the handler: werkzeug rejects a body
exceeding MAX_CONTENT_LENGTH with 413 before the handler runs. -/
def handle_upload (ccUrl : String) (contentLength : Nat) (req : UploadRequest)
    (now : Timestamp) (putOutcome : Except String Unit) : UploadResponse × List StoreOp :=
  if MAX_FILE_SIZE < contentLength then
    (⟨413, UploadBody.failure "Request Entity Too Large"⟩, [])
  else upload ccUrl req now putOutcome

/-! ### The gallery handler (app.py lines 86-102) -/

/-- Body of a gallery response. -/
inductive GalleryBody
  | failure (error : String)
  | success (gallery : List String)
deriving DecidableEq

/-- Python's string comparison `a <= b`: lexicographic by code point. -/
def pyStrLeChars : List Char → List Char → Bool
  | [], _ => true
  | _ :: _, [] => false
  | a :: as, b :: bs =>
    if a < b then true else if b < a then false else pyStrLeChars as bs

/-- Python's `a <= b` on strings. -/
def pyStrLe (a b : String) : Bool := pyStrLeChars a.data b.data

/-- Insert `a` in front of the first element it is ≥, keeping a descending
list descending (the insertion step of a stable sort). -/
def revInsert (a : String) : List String → List String
  | [] => [a]
  | b :: l => if pyStrLe b a then a :: b :: l else b :: revInsert a l

/-- Python's `list.sort(reverse=True)` on strings: stable sort into descending
lexicographic (code-point) order, modelled by stable insertion sort. -/
def sortReverse : List String → List String
  | [] => []
  | b :: l => revInsert b (sortReverse l)

/-- The gallery handler; `listOutcome` is the outcome of iterating
`cc.list_blobs()`, delivering every stored blob's name. -/
def gallery (ccUrl : String) (listOutcome : Except String (List String)) :
    (Nat × GalleryBody) × List StoreOp :=
  match listOutcome with
  | Except.error e => ((500, GalleryBody.failure e), [StoreOp.listBlobs])
  | Except.ok keys =>
    let gallery_urls := keys.map (fun k => ccUrl ++ "/" ++ k)
    ((200, GalleryBody.success (sortReverse gallery_urls)), [StoreOp.listBlobs])

/-! ### The health handler (app.py lines 104-118) -/

/-- Body of a health response. -/
structure HealthBody where
  status : String
  message : String
deriving DecidableEq

/-- The health handler: `cc` is the module-level container client (`none`
models `cc is None`), `probeOutcome` the outcome of
`cc.get_container_properties()`. -/
def health (cc : Option Unit) (probeOutcome : Except String Unit) :
    (Nat × HealthBody) × List StoreOp :=
  match cc with
  | none =>
    ((503, ⟨"UNHEALTHY", "Storage client failed to initialize"⟩), [])
  | some _ =>
    match probeOutcome with
    | Except.ok _ =>
      ((200, ⟨"OK", "Azure Storage connection successful"⟩), [StoreOp.getProperties])
    | Except.error e =>
      ((503, ⟨"DEGRADED", "Storage connection failed: " ++ e⟩), [StoreOp.getProperties])

/-! ### Module start-up (app.py lines 9-19)

`BlobServiceClient.from_connection_string` is called at import time with no
try/except around it.  With the credential env var absent, `os.getenv` returns
None and the SDK raises (`None.split(';')` - AttributeError), which aborts the
import: the process crashes before Flask ever serves.  There is no code path
that leaves `cc = None`: on success `cc` is always a client. -/

/-- `BlobServiceClient.from_connection_string`: raises when handed None. -/
def from_connection_string (connStr : Option String) : Except String Unit :=
  match connStr with
  | none => Except.error "AttributeError: NoneType object has no attribute split"
  | some _ => Except.ok ()

/-- Module import: returns the value of `cc` the app serves with, or the
uncaught start-up exception. -/
def startup (envConnectionString : Option String) : Except String (Option Unit) :=
  match from_connection_string envConnectionString with
  | Except.error e => Except.error e
  | Except.ok _ => Except.ok (some ())

/-! ### Order facts about the descending sort -/

/-- pyStrLeChars decides the standard lexicographic order on char lists. -/
theorem pyStrLeChars_iff : ∀ l₁ l₂ : List Char, pyStrLeChars l₁ l₂ = true ↔ l₁ ≤ l₂
  | [], l₂ => by simp [pyStrLeChars, List.nil_le]
  | a :: as, [] => by
    simp only [pyStrLeChars, Bool.false_eq_true, false_iff]
    exact fun h => h.not_lt (List.nil_lt_cons a as)
  | a :: as, b :: bs => by
    by_cases hab : a < b
    · simp only [pyStrLeChars, if_pos hab, true_iff]
      exact le_of_lt (List.Lex.rel hab)
    · by_cases hba : b < a
      · simp only [pyStrLeChars, if_neg hab, if_pos hba, Bool.false_eq_true, false_iff]
        exact (show (b :: bs) < (a :: as) from List.Lex.rel hba).not_le
      · obtain rfl : a = b := le_antisymm (not_lt.mp hba) (not_lt.mp hab)
        rw [pyStrLeChars, if_neg hab, if_neg hba, pyStrLeChars_iff as bs]
        constructor
        · intro h
          exact List.cons_le_cons a h
        · intro h
          by_contra hc
          exact (show (a :: bs) < (a :: as) from List.Lex.cons (not_le.mp hc)).not_le h

/-- pyStrLe decides the standard order on strings. -/
theorem pyStrLe_iff (a b : String) : pyStrLe a b = true ↔ a ≤ b := by
  rw [pyStrLe, pyStrLeChars_iff]
  exact Iff.symm String.le_iff_toList_le

/-- Membership in an insertion step. -/
theorem mem_revInsert (a x : String) : ∀ l : List String,
    x ∈ revInsert a l ↔ x = a ∨ x ∈ l
  | [] => by simp [revInsert]
  | b :: l => by
    rw [revInsert]
    by_cases h : pyStrLe b a
    · simp [if_pos h]
    · simp only [if_neg h, List.mem_cons, mem_revInsert a x l]
      tauto

/-- An insertion step is a permutation of consing. -/
theorem revInsert_perm (a : String) : ∀ l : List String, (revInsert a l).Perm (a :: l)
  | [] => List.Perm.refl _
  | b :: l => by
    rw [revInsert]
    by_cases h : pyStrLe b a
    · rw [if_pos h]
    · rw [if_neg h]
      exact ((revInsert_perm a l).cons b).trans (List.Perm.swap a b l)

/-- The descending sort permutes its input. -/
theorem sortReverse_perm : ∀ l : List String, (sortReverse l).Perm l
  | [] => List.Perm.refl _
  | b :: l => (revInsert_perm b (sortReverse l)).trans ((sortReverse_perm l).cons b)

/-- An insertion step keeps the list descending. -/
theorem pairwise_revInsert (a : String) : ∀ l : List String,
    l.Pairwise (fun x y => y ≤ x) → (revInsert a l).Pairwise (fun x y => y ≤ x)
  | [], _ => by simp [revInsert]
  | b :: l, h => by
    rw [revInsert]
    by_cases hba : pyStrLe b a
    · rw [if_pos hba]
      have hba' : b ≤ a := (pyStrLe_iff b a).mp hba
      refine List.Pairwise.cons ?_ h
      intro y hy
      rcases List.mem_cons.mp hy with rfl | hy
      · exact hba'
      · exact le_trans (List.rel_of_pairwise_cons h hy) hba'
    · rw [if_neg hba]
      have hab : a ≤ b := le_of_not_le (fun hc => hba ((pyStrLe_iff b a).mpr hc))
      refine List.Pairwise.cons ?_ (pairwise_revInsert a l (List.Pairwise.of_cons h))
      intro y hy
      rcases (mem_revInsert a y l).mp hy with rfl | hy
      · exact hab
      · exact List.rel_of_pairwise_cons h hy

/-- The descending sort is descending: each element is ≥ every later one. -/
theorem sortReverse_sorted : ∀ l : List String, (sortReverse l).Pairwise (fun x y => y ≤ x)
  | [] => List.Pairwise.nil
  | b :: l => pairwise_revInsert b _ (sortReverse_sorted l)

/-! ### Facts about sanitization -/

/-- Characters failing the predicate survive `dropWhile`. -/
theorem mem_dropWhile_of_not {α} {p : α → Bool} {c : α} (hc : p c = false) :
    ∀ {l : List α}, c ∈ l → c ∈ l.dropWhile p
  | [], h => absurd h (List.not_mem_nil c)
  | a :: l, h => by
    by_cases ha : p a = true
    · rw [List.dropWhile_cons, if_pos ha]
      rcases List.mem_cons.mp h with rfl | h'
      · rw [hc] at ha
        exact absurd ha (by simp)
      · exact mem_dropWhile_of_not hc h'
    · rw [List.dropWhile_cons, if_neg ha]
      exact h

/-- Characters other than '.' and '_' survive the strip step. -/
theorem mem_stripDotsUnderscores {c : Char} (hc : isDotOrUnderscore c = false)
    {l : List Char} (h : c ∈ l) : c ∈ stripDotsUnderscores l := by
  unfold stripDotsUnderscores
  rw [List.mem_reverse]
  exact mem_dropWhile_of_not hc (by rw [List.mem_reverse]; exact mem_dropWhile_of_not hc h)

/-- A non-separator element lands in one of the pieces of `splitOnP`. -/
theorem exists_mem_splitOnP {α} {p : α → Bool} {c : α} (hc : p c = false) :
    ∀ {l : List α}, c ∈ l → ∃ w ∈ l.splitOnP p, c ∈ w
  | [], h => absurd h (List.not_mem_nil c)
  | a :: l, h => by
    rw [List.splitOnP_cons]
    by_cases ha : p a = true
    · rw [if_pos ha]
      rcases List.mem_cons.mp h with rfl | h'
      · rw [hc] at ha
        exact absurd ha (by simp)
      · obtain ⟨w, hw, hcw⟩ := exists_mem_splitOnP hc h'
        exact ⟨w, List.mem_cons_of_mem _ hw, hcw⟩
    · rw [if_neg ha]
      obtain ⟨w₀, rest, hsplit⟩ : ∃ w₀ rest, l.splitOnP p = w₀ :: rest := by
        rcases hS : l.splitOnP p with _ | ⟨w₀, rest⟩
        · exact absurd hS (List.splitOnP_ne_nil p l)
        · exact ⟨w₀, rest, rfl⟩
      rw [hsplit, List.modifyHead_cons]
      rcases List.mem_cons.mp h with rfl | h'
      · exact ⟨c :: w₀, List.mem_cons_self _ _, List.mem_cons_self _ _⟩
      · obtain ⟨w, hw, hcw⟩ := exists_mem_splitOnP hc h'
        rw [hsplit] at hw
        rcases List.mem_cons.mp hw with rfl | hw'
        · exact ⟨a :: w, List.mem_cons_self _ _, List.mem_cons_of_mem _ hcw⟩
        · exact ⟨w, List.mem_cons_of_mem _ hw', hcw⟩

/-- Membership passes from a list to its interspersion. -/
theorem mem_intersperse_of_mem {α} {sep x : α} :
    ∀ {l : List α}, x ∈ l → x ∈ l.intersperse sep
  | [], h => absurd h (List.not_mem_nil x)
  | [a], h => by simpa using h
  | a :: b :: l, h => by
    rw [List.intersperse_cons₂]
    rcases List.mem_cons.mp h with rfl | h'
    · exact List.mem_cons_self _ _
    · exact List.mem_cons_of_mem _ (List.mem_cons_of_mem _ (mem_intersperse_of_mem h'))

/-- Membership in a piece gives membership in the intercalation. -/
theorem mem_intercalate_of_mem {α} {sep : List α} {c : α} {ws : List (List α)}
    {w : List α} (hw : w ∈ ws) (hc : c ∈ w) : c ∈ List.intercalate sep ws := by
  unfold List.intercalate
  exact List.mem_flatten.mpr ⟨w, mem_intersperse_of_mem hw, hc⟩

/-- Members of the extension returned by `afterLastDot` are members of the
filename. -/
theorem afterLastDot_mem {c : Char} : ∀ {l t : List Char},
    afterLastDot l = some t → c ∈ t → c ∈ l
  | [], t, h, _ => by simp [afterLastDot] at h
  | a :: l, t, h, hc => by
    rw [afterLastDot] at h
    rcases hA : afterLastDot l with _ | t'
    · rw [hA] at h
      by_cases ha : (a == '.') = true
      · rw [if_pos ha] at h
        obtain rfl : l = t := by simpa using h
        exact List.mem_cons_of_mem _ hc
      · rw [if_neg ha] at h
        simp at h
    · rw [hA] at h
      obtain rfl : t' = t := by simpa using h
      exact List.mem_cons_of_mem _ (afterLastDot_mem hA hc)

/-- Characters with different code points are different. -/
theorem beq_false_of_toNat_ne {c d : Char} (h : c.toNat ≠ d.toNat) : (c == d) = false :=
  beq_eq_false_iff_ne.mpr fun he => h (congrArg Char.toNat he)

/-- A character whose ASCII lowercasing is a lowercase letter survives every
stage of `secure_filename`: it is ASCII, not whitespace, not a path separator,
in the safe class, and not '.' or '_'. -/
theorem survivor_of_toLower (c d : Char) (h : Char.toLower c = d)
    (h1 : 97 ≤ d.toNat) (h2 : d.toNat ≤ 122) :
    c.toNat ≤ 127 ∧ isPyWs c = false ∧ (c == '/') = false ∧
    isSafeKeyChar c = true ∧ isDotOrUnderscore c = false := by
  rw [show Char.toLower c =
    if c.toNat ≥ 65 ∧ c.toNat ≤ 90 then Char.ofNat (c.toNat + 32) else c from rfl] at h
  by_cases hrange : c.toNat ≥ 65 ∧ c.toNat ≤ 90
  · obtain ⟨ha, hb⟩ := hrange
    refine ⟨by omega, ?_, ?_, ?_, ?_⟩
    · simp only [isPyWs, Bool.or_eq_false_iff]
      refine ⟨⟨⟨⟨⟨?_, ?_⟩, ?_⟩, ?_⟩, ?_⟩, ?_⟩ <;>
        exact beq_false_of_toNat_ne (Nat.ne_of_gt (lt_of_lt_of_le (by decide) ha))
    · exact beq_false_of_toNat_ne (Nat.ne_of_gt (lt_of_lt_of_le (by decide) ha))
    · simp only [isSafeKeyChar, Bool.or_eq_true, Bool.and_eq_true, decide_eq_true_eq]
      exact Or.inl (Or.inl (Or.inl (Or.inl (Or.inl ⟨ha, hb⟩))))
    · simp only [isDotOrUnderscore, Bool.or_eq_false_iff]
      exact ⟨beq_false_of_toNat_ne (Nat.ne_of_gt (lt_of_lt_of_le (by decide) ha)),
        beq_false_of_toNat_ne (Nat.ne_of_lt (lt_of_le_of_lt hb (by decide)))⟩
  · rw [if_neg hrange] at h
    subst h
    refine ⟨by omega, ?_, ?_, ?_, ?_⟩
    · simp only [isPyWs, Bool.or_eq_false_iff]
      refine ⟨⟨⟨⟨⟨?_, ?_⟩, ?_⟩, ?_⟩, ?_⟩, ?_⟩ <;>
        exact beq_false_of_toNat_ne (Nat.ne_of_gt (lt_of_lt_of_le (by decide) h1))
    · exact beq_false_of_toNat_ne (Nat.ne_of_gt (lt_of_lt_of_le (by decide) h1))
    · simp only [isSafeKeyChar, Bool.or_eq_true, Bool.and_eq_true, decide_eq_true_eq]
      exact Or.inl (Or.inl (Or.inl (Or.inl (Or.inr ⟨h1, h2⟩))))
    · simp only [isDotOrUnderscore, Bool.or_eq_false_iff]
      exact ⟨beq_false_of_toNat_ne (Nat.ne_of_gt (lt_of_lt_of_le (by decide) h1)),
        beq_false_of_toNat_ne (Nat.ne_of_gt (lt_of_lt_of_le (by decide) h1))⟩

/-- A character satisfying all stage conditions is kept by
`secureFilenameChars`. -/
theorem survivor_chars {c : Char} (h1 : c.toNat ≤ 127) (h2 : isPyWs c = false)
    (h3 : (c == '/') = false) (h4 : isSafeKeyChar c = true)
    (h5 : isDotOrUnderscore c = false) {l : List Char} (hmem : c ∈ l) :
    c ∈ secureFilenameChars l := by
  simp only [secureFilenameChars]
  have m1 : c ∈ l.filter (fun c => decide (c.toNat ≤ 127)) :=
    List.mem_filter.mpr ⟨hmem, by simpa using h1⟩
  have m2 : c ∈ (l.filter (fun c => decide (c.toNat ≤ 127))).map
      (fun c => if c == '/' then ' ' else c) := by
    have hmap := List.mem_map_of_mem (fun c => if c == '/' then ' ' else c) m1
    simp only [h3, Bool.false_eq_true, if_false] at hmap
    exact hmap
  obtain ⟨w, hw, hcw⟩ := exists_mem_splitOnP h2 m2
  have hw2 : w ∈ pySplit ((l.filter (fun c => decide (c.toNat ≤ 127))).map
      (fun c => if c == '/' then ' ' else c)) :=
    List.mem_filter.mpr ⟨hw, by simp [List.isEmpty_iff, List.ne_nil_of_mem hcw]⟩
  exact mem_stripDotsUnderscores h5
    (List.mem_filter.mpr ⟨mem_intercalate_of_mem hw2 hcw, h4⟩)

/-- When the lowercased extension is a nonempty literal, the extension starts
with a character lowercasing to the literal's first character. -/
theorem lower_head_exists {ext : List Char} {s : String} (h : lowerString ext = s)
    (c₀ : Char) (cs : List Char) (hs : s.data = c₀ :: cs) :
    ∃ c rest, ext = c :: rest ∧ Char.toLower c = c₀ := by
  have hdata : ext.map Char.toLower = c₀ :: cs := by
    have h' : ext.map Char.toLower = s.data := congrArg String.data h
    rw [h', hs]
  rcases ext with _ | ⟨c, rest⟩
  · simp at hdata
  · simp only [List.map_cons, List.cons.injEq] at hdata
    exact ⟨c, rest, rfl, hdata.1⟩

/-- Helper: an extension whose lowercasing is a literal starting with a
lowercase letter forces the sanitized filename to be nonempty. -/
theorem secure_ne_nil_of_lower_eq {fn : String} {ext : List Char}
    (hA : afterLastDot fn.data = some ext) {s : String} (h : lowerString ext = s)
    (c₀ : Char) (cs : List Char) (hs : s.data = c₀ :: cs)
    (hb1 : 97 ≤ c₀.toNat) (hb2 : c₀.toNat ≤ 122) :
    secureFilenameChars fn.data ≠ [] := by
  obtain ⟨c, rest, hcr, hlow⟩ := lower_head_exists h c₀ cs hs
  obtain ⟨k1, k2, k3, k4, k5⟩ := survivor_of_toLower c c₀ hlow hb1 hb2
  subst hcr
  exact List.ne_nil_of_mem (survivor_chars k1 k2 k3 k4 k5
    (afterLastDot_mem hA (List.mem_cons_self c rest)))

/-- A filename passing the extension check sanitizes to a nonempty name: the
letters of its allowed extension survive sanitization. -/
theorem secureFilenameChars_ne_nil_of_allowed {fn : String}
    (h : is_allowed_file fn = true) : secureFilenameChars fn.data ≠ [] := by
  unfold is_allowed_file at h
  rcases hA : afterLastDot fn.data with _ | ext <;> rw [hA] at h
  · exact absurd h (by simp)
  · have hmem : lowerString ext ∈ ALLOWED_EXTENSIONS := by
      simpa using h
    simp only [ALLOWED_EXTENSIONS, List.mem_cons, List.not_mem_nil, or_false] at hmem
    rcases hmem with h' | h' | h' | h' | h' | h' | h' <;>
      exact secure_ne_nil_of_lower_eq hA h' _ _ rfl (by decide) (by decide)

/-- Every character `digitChar` produces is a decimal digit. -/
theorem digitChar_isDigit (n : Nat) : (digitChar n).isDigit = true := by
  unfold digitChar
  split <;> decide

/-- The generated blob name always matches `^\d{8}T\d{6}-.+$` when the
sanitized filename is nonempty. -/
theorem matchesKeyPattern_generate (now : Timestamp) (fn : String)
    (hsafe : secureFilenameChars fn.data ≠ []) :
    matchesKeyPattern (generate_blob_name now fn) = true := by
  have hdata : (generate_blob_name now fn).data =
      digitChar (now.year / 1000) :: digitChar (now.year / 100) ::
      digitChar (now.year / 10) :: digitChar now.year ::
      digitChar (now.month / 10) :: digitChar now.month ::
      digitChar (now.day / 10) :: digitChar now.day :: 'T' ::
      digitChar (now.hour / 10) :: digitChar now.hour ::
      digitChar (now.minute / 10) :: digitChar now.minute ::
      digitChar (now.second / 10) :: digitChar now.second :: '-' ::
      secureFilenameChars fn.data := by
    simp [generate_blob_name, strftime_compact, secure_filename, pad4, pad2,
      String.data_append]
  rw [matchesKeyPattern, hdata]
  simp only [digitChar_isDigit, Bool.and_true, Bool.true_and, beq_self_eq_true,
    Bool.not_eq_true']
  exact List.isEmpty_eq_false.mpr hsafe

/-! ### Reductions of the upload handler -/

/-- A filename passing the extension check is nonempty. -/
theorem filename_ne_empty_of_allowed {fn : String} (h : is_allowed_file fn = true) :
    (fn == "") = false := by
  refine beq_eq_false_iff_ne.mpr ?_
  intro he
  rw [he] at h
  exact absurd h (by decide)

/-- When every check passes and the store write returns, the handler answers
200 with the public URL and performs exactly the one put. -/
theorem upload_ok_eq (ccUrl : String) (f : FilePart) (now : Timestamp)
    (hext : is_allowed_file f.filename = true)
    (hct : content_type_is_image f.content_type = true) :
    upload ccUrl ⟨some f⟩ now (Except.ok ()) =
      (⟨200, UploadBody.success (ccUrl ++ "/" ++ generate_blob_name now f.filename)⟩,
       [StoreOp.put (generate_blob_name now f.filename) f.content (f.content_type.getD "")]) := by
  simp [upload, filename_ne_empty_of_allowed hext, hext, hct]

/-- When every check passes and the store write raises, the handler answers
500 with the raw error string, still having performed exactly the one put. -/
theorem upload_err_eq (ccUrl : String) (f : FilePart) (now : Timestamp) (e : String)
    (hext : is_allowed_file f.filename = true)
    (hct : content_type_is_image f.content_type = true) :
    upload ccUrl ⟨some f⟩ now (Except.error e) =
      (⟨500, UploadBody.failure e⟩,
       [StoreOp.put (generate_blob_name now f.filename) f.content (f.content_type.getD "")]) := by
  simp [upload, filename_ne_empty_of_allowed hext, hext, hct]

/-! ### The claims -/

/-- C1: every upload request passes through exactly the four checks in order,
short-circuiting with 400 and the respective message and without touching the
store: (1) missing field 'file' gives "No file provided"; (2) an empty
filename gives "No file selected"; (3) a filename whose text after the last
'.', lowercased, is not an allowed image extension (in particular a filename
with no '.') gives the "Invalid file type" message, whatever the declared
content type; (4) an absent content type, or one not starting with "image/",
gives "File must be an image". -/
theorem c1_upload_validation_pipeline (ccUrl : String) (req : UploadRequest)
    (now : Timestamp) (po : Except String Unit) :
    (req.file = none →
      upload ccUrl req now po = (⟨400, UploadBody.failure "No file provided"⟩, [])) ∧
    (∀ f, req.file = some f → f.filename = "" →
      upload ccUrl req now po = (⟨400, UploadBody.failure "No file selected"⟩, [])) ∧
    (∀ f, req.file = some f → f.filename ≠ "" → is_allowed_file f.filename = false →
      upload ccUrl req now po =
        (⟨400, UploadBody.failure "Invalid file type. Only image files allowed."⟩, [])) ∧
    (∀ f, req.file = some f → is_allowed_file f.filename = true →
      content_type_is_image f.content_type = false →
      upload ccUrl req now po = (⟨400, UploadBody.failure "File must be an image"⟩, [])) ∧
    (∀ fn : String, afterLastDot fn.data = none → is_allowed_file fn = false) := by
  obtain ⟨file⟩ := req
  refine ⟨?_, ?_, ?_, ?_, ?_⟩
  · rintro rfl
    rfl
  · rintro f rfl hemp
    simp [upload, beq_iff_eq.mpr hemp]
  · rintro f rfl hne hext
    simp [upload, beq_eq_false_iff_ne.mpr hne, hext]
  · rintro f rfl hext hct
    simp [upload, filename_ne_empty_of_allowed hext, hext, hct]
  · intro fn hA
    unfold is_allowed_file
    rw [hA]

/-- Witness for C1: the four rejections at concrete requests. -/
theorem c1_upload_validation_pipeline_witness :
    upload container_url ⟨none⟩ ⟨2025, 1, 2, 3, 4, 5⟩ (Except.ok ()) =
      (⟨400, UploadBody.failure "No file provided"⟩, []) ∧
    upload container_url ⟨some ⟨"", some "image/png", []⟩⟩ ⟨2025, 1, 2, 3, 4, 5⟩
        (Except.ok ()) = (⟨400, UploadBody.failure "No file selected"⟩, []) ∧
    upload container_url ⟨some ⟨"virus.exe", some "image/png", []⟩⟩ ⟨2025, 1, 2, 3, 4, 5⟩
        (Except.ok ()) =
      (⟨400, UploadBody.failure "Invalid file type. Only image files allowed."⟩, []) ∧
    upload container_url ⟨some ⟨"x.png", some "text/plain", []⟩⟩ ⟨2025, 1, 2, 3, 4, 5⟩
        (Except.ok ()) = (⟨400, UploadBody.failure "File must be an image"⟩, []) :=
  ⟨(c1_upload_validation_pipeline container_url ⟨none⟩ ⟨2025, 1, 2, 3, 4, 5⟩
      (Except.ok ())).1 rfl,
   (c1_upload_validation_pipeline container_url _ ⟨2025, 1, 2, 3, 4, 5⟩
      (Except.ok ())).2.1 _ rfl rfl,
   (c1_upload_validation_pipeline container_url _ ⟨2025, 1, 2, 3, 4, 5⟩
      (Except.ok ())).2.2.1 _ rfl (by decide) (by decide),
   (c1_upload_validation_pipeline container_url _ ⟨2025, 1, 2, 3, 4, 5⟩
      (Except.ok ())).2.2.2.1 _ rfl (by decide) (by decide)⟩

/-- C2: an upload whose filename carries an allowed extension (compared case
insensitively), whose content type starts with "image/", and whose store write
returns, answers 200 with `{ok:true, url:ccUrl/key}`, the key being the
generated blob name, which matches `^\d{8}T\d{6}-.+$`. -/
theorem c2_upload_success_url_and_key (ccUrl : String) (req : UploadRequest)
    (f : FilePart) (now : Timestamp) (hf : req.file = some f)
    (hext : is_allowed_file f.filename = true)
    (hct : content_type_is_image f.content_type = true)
    (_hnow : now.valid) :
    upload ccUrl req now (Except.ok ()) =
      (⟨200, UploadBody.success (ccUrl ++ "/" ++ generate_blob_name now f.filename)⟩,
       [StoreOp.put (generate_blob_name now f.filename) f.content (f.content_type.getD "")]) ∧
    matchesKeyPattern (generate_blob_name now f.filename) = true := by
  obtain ⟨file⟩ := req
  cases hf
  exact ⟨upload_ok_eq ccUrl f now hext hct,
    matchesKeyPattern_generate now f.filename (secureFilenameChars_ne_nil_of_allowed hext)⟩

/-- Witness for C2 at a concrete request. -/
theorem c2_upload_success_url_and_key_witness :
    upload container_url ⟨some ⟨"cat pic.PNG", some "image/png", [7]⟩⟩
        ⟨2025, 6, 7, 8, 9, 10⟩ (Except.ok ()) =
      (⟨200, UploadBody.success (container_url ++ "/" ++
         generate_blob_name ⟨2025, 6, 7, 8, 9, 10⟩ "cat pic.PNG")⟩,
       [StoreOp.put (generate_blob_name ⟨2025, 6, 7, 8, 9, 10⟩ "cat pic.PNG") [7]
         ((some "image/png").getD "")]) ∧
    matchesKeyPattern (generate_blob_name ⟨2025, 6, 7, 8, 9, 10⟩ "cat pic.PNG") = true :=
  c2_upload_success_url_and_key container_url
    ⟨some ⟨"cat pic.PNG", some "image/png", [7]⟩⟩ ⟨"cat pic.PNG", some "image/png", [7]⟩
    ⟨2025, 6, 7, 8, 9, 10⟩ rfl (by decide) (by decide)
    (by unfold Timestamp.valid; decide)

/-- C4: any store exception during the upload write or the gallery listing is
caught and turned into a 500 response whose error field is the raw exception
string, and the store call is not retried (the trace holds exactly one
operation). -/
theorem c4_store_exception_500_raw (ccUrl : String) (req : UploadRequest) (f : FilePart)
    (now : Timestamp) (e e2 : String) (hf : req.file = some f)
    (hext : is_allowed_file f.filename = true)
    (hct : content_type_is_image f.content_type = true) :
    upload ccUrl req now (Except.error e) =
      (⟨500, UploadBody.failure e⟩,
       [StoreOp.put (generate_blob_name now f.filename) f.content (f.content_type.getD "")]) ∧
    gallery ccUrl (Except.error e2) = ((500, GalleryBody.failure e2), [StoreOp.listBlobs]) := by
  obtain ⟨file⟩ := req
  cases hf
  exact ⟨upload_err_eq ccUrl f now e hext hct, rfl⟩

/-- Witness for C4 at a concrete request and error. -/
theorem c4_store_exception_500_raw_witness :
    upload container_url ⟨some ⟨"x.png", some "image/png", [1]⟩⟩ ⟨2025, 1, 2, 3, 4, 5⟩
        (Except.error "ServiceRequestError: connection refused") =
      (⟨500, UploadBody.failure "ServiceRequestError: connection refused"⟩,
       [StoreOp.put (generate_blob_name ⟨2025, 1, 2, 3, 4, 5⟩ "x.png") [1]
         ((some "image/png").getD "")]) ∧
    gallery container_url (Except.error "boom") =
      ((500, GalleryBody.failure "boom"), [StoreOp.listBlobs]) :=
  c4_store_exception_500_raw container_url ⟨some ⟨"x.png", some "image/png", [1]⟩⟩
    ⟨"x.png", some "image/png", [1]⟩ ⟨2025, 1, 2, 3, 4, 5⟩
    "ServiceRequestError: connection refused" "boom" rfl (by decide) (by decide)

/-- C3: the gallery, when listing succeeds, answers 200 with every stored
key's URL `ccUrl/key`, sorted descending in the lexicographic order of the
full URL string; in particular the 20250102... URL precedes the 20250101...
URL. -/
theorem c3_gallery_sorted_descending (ccUrl : String) (keys : List String) :
    gallery ccUrl (Except.ok keys) =
      ((200, GalleryBody.success (sortReverse (keys.map (fun k => ccUrl ++ "/" ++ k)))),
       [StoreOp.listBlobs]) ∧
    (sortReverse (keys.map (fun k => ccUrl ++ "/" ++ k))).Perm
      (keys.map (fun k => ccUrl ++ "/" ++ k)) ∧
    (sortReverse (keys.map (fun k => ccUrl ++ "/" ++ k))).Pairwise (fun a b => b ≤ a) ∧
    gallery container_url (Except.ok ["20250101T000000-a.png", "20250102T000000-b.png"]) =
      ((200, GalleryBody.success
        [container_url ++ "/" ++ "20250102T000000-b.png",
         container_url ++ "/" ++ "20250101T000000-a.png"]), [StoreOp.listBlobs]) :=
  ⟨rfl, sortReverse_perm _, sortReverse_sorted _, by decide⟩

/-- C5: with the storage credential absent, module import raises out of
`from_connection_string` and the process never starts serving, contradicting
the claim that initialization failure is survived and surfaced through the
health endpoint; the health handler's UNHEALTHY branch (`cc is None`) would
answer 503 as claimed, but no successful start-up ever leaves `cc` empty, so
that branch is unreachable dead code. -/
theorem c5_missing_credential_startup (env : Option String) :
    startup none = Except.error "AttributeError: NoneType object has no attribute split" ∧
    startup (some "DefaultEndpointsProtocol=https;AccountName=a;AccountKey=k") =
      Except.ok (some ()) ∧
    (startup env = Except.error "AttributeError: NoneType object has no attribute split" ∨
      startup env = Except.ok (some ())) ∧
    health none (Except.ok ()) =
      ((503, ⟨"UNHEALTHY", "Storage client failed to initialize"⟩), []) ∧
    health none (Except.error "x") =
      ((503, ⟨"UNHEALTHY", "Storage client failed to initialize"⟩), []) := by
  refine ⟨rfl, rfl, ?_, rfl, rfl⟩
  rcases env with _ | s
  · exact Or.inl rfl
  · exact Or.inr rfl

/-- C6: with the client initialized, health answers 200 `{status:OK}` exactly
when the properties probe returns, and otherwise 503 `{status:DEGRADED}` with
a message embedding the raw probe error; DEGRADED is distinct from
UNHEALTHY. -/
theorem c6_health_ok_iff_probe_ok (probe : Except String Unit) :
    (((health (some ()) probe).1.1 = 200) ↔ probe = Except.ok ()) ∧
    (probe = Except.ok () →
      health (some ()) probe =
        ((200, ⟨"OK", "Azure Storage connection successful"⟩), [StoreOp.getProperties])) ∧
    (∀ e, probe = Except.error e →
      health (some ()) probe =
        ((503, ⟨"DEGRADED", "Storage connection failed: " ++ e⟩),
         [StoreOp.getProperties]) ∧
      e.data.IsSuffix ("Storage connection failed: " ++ e).data) ∧
    ("DEGRADED" : String) ≠ "UNHEALTHY" := by
  rcases probe with e | u
  · refine ⟨⟨fun h => absurd (show (503 : Nat) = 200 from h) (by decide),
      fun h => Except.noConfusion h⟩, fun h => Except.noConfusion h, ?_, by decide⟩
    intro e' he
    obtain rfl : e = e' := by simpa using he
    refine ⟨rfl, ?_⟩
    rw [String.data_append]
    exact List.suffix_append _ _
  · cases u
    exact ⟨⟨fun _ => rfl, fun _ => rfl⟩, fun _ => rfl,
      fun e he => Except.noConfusion he, by decide⟩

/-- Witness for C6: both health branches at concrete probes. -/
theorem c6_health_ok_iff_probe_ok_witness :
    health (some ()) (Except.ok ()) =
      ((200, ⟨"OK", "Azure Storage connection successful"⟩), [StoreOp.getProperties]) ∧
    (health (some ()) (Except.error "auth expired") =
      ((503, ⟨"DEGRADED", "Storage connection failed: " ++ "auth expired"⟩),
       [StoreOp.getProperties]) ∧
    "auth expired".data.IsSuffix ("Storage connection failed: " ++ "auth expired").data) :=
  ⟨(c6_health_ok_iff_probe_ok (Except.ok ())).2.1 rfl,
   (c6_health_ok_iff_probe_ok (Except.error "auth expired")).2.2.1 "auth expired" rfl⟩

/-- One put under a key leaves exactly one entry under that key. -/
theorem countP_putBlob (s : BlobStore) (k : String) (c : List Nat) (ct : String) :
    (putBlob s k c ct).countP (fun kv => kv.1 == k) = 1 := by
  unfold putBlob
  rw [List.countP_cons]
  have h0 : (s.filter (fun e => !(e.1 == k))).countP (fun kv => kv.1 == k) = 0 := by
    rw [List.countP_eq_zero]
    intro a ha
    have hmem := (List.mem_filter.mp ha).2
    simp only [Bool.not_eq_true'] at hmem
    simp [hmem]
  simp [h0]

/-- Looking up the key just written returns the written blob. -/
theorem lookup_putBlob (s : BlobStore) (k : String) (c : List Nat) (ct : String) :
    (putBlob s k c ct).lookup k = some (c, ct) :=
  List.lookup_cons_self

/-- C7: the object key is a function of the wall-clock second and the
sanitized filename alone, so two uploads of the same filename in the same
second write the same key; the write runs with overwrite, so afterwards the
store holds exactly one object under that key and it carries the second
upload's bytes and content type. -/
theorem c7_same_second_overwrite (ccUrl : String) (now : Timestamp)
    (f1 f2 : FilePart) (s : BlobStore) (hname : f1.filename = f2.filename)
    (hext : is_allowed_file f1.filename = true)
    (hct1 : content_type_is_image f1.content_type = true)
    (hct2 : content_type_is_image f2.content_type = true) :
    (upload ccUrl ⟨some f1⟩ now (Except.ok ())).2 =
      [StoreOp.put (generate_blob_name now f1.filename) f1.content
        (f1.content_type.getD "")] ∧
    (upload ccUrl ⟨some f2⟩ now (Except.ok ())).2 =
      [StoreOp.put (generate_blob_name now f1.filename) f2.content
        (f2.content_type.getD "")] ∧
    (runOps (runOps s (upload ccUrl ⟨some f1⟩ now (Except.ok ())).2)
        (upload ccUrl ⟨some f2⟩ now (Except.ok ())).2).countP
        (fun kv => kv.1 == generate_blob_name now f1.filename) = 1 ∧
    (runOps (runOps s (upload ccUrl ⟨some f1⟩ now (Except.ok ())).2)
        (upload ccUrl ⟨some f2⟩ now (Except.ok ())).2).lookup
        (generate_blob_name now f1.filename) =
      some (f2.content, f2.content_type.getD "") := by
  have hext2 : is_allowed_file f2.filename = true := hname ▸ hext
  have e1 := upload_ok_eq ccUrl f1 now hext hct1
  have e2 := upload_ok_eq ccUrl f2 now hext2 hct2
  rw [e1, e2, hname]
  exact ⟨rfl, rfl, countP_putBlob _ _ _ _, lookup_putBlob _ _ _ _⟩

/-- Witness for C7: two concrete same-second uploads of "dup.png". -/
theorem c7_same_second_overwrite_witness :
    (upload container_url ⟨some ⟨"dup.png", some "image/png", [1]⟩⟩ ⟨2025, 1, 2, 3, 4, 5⟩
        (Except.ok ())).2 =
      [StoreOp.put (generate_blob_name ⟨2025, 1, 2, 3, 4, 5⟩ "dup.png") [1]
        ((some "image/png").getD "")] ∧
    (upload container_url ⟨some ⟨"dup.png", some "image/jpeg", [2]⟩⟩ ⟨2025, 1, 2, 3, 4, 5⟩
        (Except.ok ())).2 =
      [StoreOp.put (generate_blob_name ⟨2025, 1, 2, 3, 4, 5⟩ "dup.png") [2]
        ((some "image/jpeg").getD "")] ∧
    (runOps (runOps []
        (upload container_url ⟨some ⟨"dup.png", some "image/png", [1]⟩⟩ ⟨2025, 1, 2, 3, 4, 5⟩
          (Except.ok ())).2)
        (upload container_url ⟨some ⟨"dup.png", some "image/jpeg", [2]⟩⟩ ⟨2025, 1, 2, 3, 4, 5⟩
          (Except.ok ())).2).countP
        (fun kv => kv.1 == generate_blob_name ⟨2025, 1, 2, 3, 4, 5⟩ "dup.png") = 1 ∧
    (runOps (runOps []
        (upload container_url ⟨some ⟨"dup.png", some "image/png", [1]⟩⟩ ⟨2025, 1, 2, 3, 4, 5⟩
          (Except.ok ())).2)
        (upload container_url ⟨some ⟨"dup.png", some "image/jpeg", [2]⟩⟩ ⟨2025, 1, 2, 3, 4, 5⟩
          (Except.ok ())).2).lookup
        (generate_blob_name ⟨2025, 1, 2, 3, 4, 5⟩ "dup.png") =
      some ([2], (some "image/jpeg").getD "") :=
  c7_same_second_overwrite container_url ⟨2025, 1, 2, 3, 4, 5⟩
    ⟨"dup.png", some "image/png", [1]⟩ ⟨"dup.png", some "image/jpeg", [2]⟩ []
    rfl (by decide) (by decide) (by decide)

/-- C10: the gallery and health handlers only ever list blobs or read the
container's properties - they never put or delete - so any store is left
exactly as it was. -/
theorem c10_gallery_health_readonly (ccUrl : String)
    (listOutcome : Except String (List String)) (cc : Option Unit)
    (probe : Except String Unit) (s : BlobStore) :
    (gallery ccUrl listOutcome).2.all (fun op => op == StoreOp.listBlobs) = true ∧
    (health cc probe).2.all (fun op => op == StoreOp.getProperties) = true ∧
    runOps s (gallery ccUrl listOutcome).2 = s ∧
    runOps s (health cc probe).2 = s := by
  rcases listOutcome with e | keys <;> rcases cc with _ | u <;> rcases probe with e2 | v <;>
    exact ⟨rfl, rfl, rfl, rfl⟩

/-- The handler performs at most one store call, and none on a 400 answer. -/
theorem upload_ops_cases (ccUrl : String) (req : UploadRequest) (now : Timestamp)
    (po : Except String Unit) :
    ((upload ccUrl req now po).1.status = 400 → (upload ccUrl req now po).2 = []) ∧
    (upload ccUrl req now po).2.length ≤ 1 := by
  rcases req with ⟨_ | f⟩
  · exact ⟨fun _ => rfl, by simp [upload]⟩
  · by_cases h1 : (f.filename == "") = true
    · simp [upload, h1]
    · by_cases h2 : is_allowed_file f.filename = true
      · by_cases h3 : content_type_is_image f.content_type = true
        · rcases po with e | u <;> simp [upload, h1, h2, h3]
        · simp [upload, h1, h2, h3]
      · simp [upload, h1, h2]

/-- C8: a request rejected by validation (400) or by the transport size cap
never reaches the store: its operation trace is empty and the store is
unchanged; an accepted request performs at most the single put. -/
theorem c8_rejections_no_store_write (ccUrl : String) (contentLength : Nat)
    (req : UploadRequest) (now : Timestamp) (po : Except String Unit) (s : BlobStore) :
    (MAX_FILE_SIZE < contentLength →
      handle_upload ccUrl contentLength req now po =
        (⟨413, UploadBody.failure "Request Entity Too Large"⟩, [])) ∧
    ((handle_upload ccUrl contentLength req now po).1.status = 400 →
      (handle_upload ccUrl contentLength req now po).2 = []) ∧
    (handle_upload ccUrl contentLength req now po).2.length ≤ 1 ∧
    ((handle_upload ccUrl contentLength req now po).1.status = 400 ∨
        MAX_FILE_SIZE < contentLength →
      runOps s (handle_upload ccUrl contentLength req now po).2 = s) := by
  unfold handle_upload
  by_cases hcl : MAX_FILE_SIZE < contentLength
  · rw [if_pos hcl]
    exact ⟨fun _ => rfl, fun _ => rfl, by simp, fun _ => rfl⟩
  · rw [if_neg hcl]
    refine ⟨fun h => absurd h hcl, (upload_ops_cases ccUrl req now po).1,
      (upload_ops_cases ccUrl req now po).2, ?_⟩
    rintro (h400 | hsz)
    · rw [(upload_ops_cases ccUrl req now po).1 h400]
      rfl
    · exact absurd hsz hcl

/-- Witness for C8: an oversize request and a 400-rejected request leave the
store alone. -/
theorem c8_rejections_no_store_write_witness :
    handle_upload container_url (MAX_FILE_SIZE + 1)
        ⟨some ⟨"x.png", some "image/png", [1]⟩⟩ ⟨2025, 1, 2, 3, 4, 5⟩ (Except.ok ()) =
      (⟨413, UploadBody.failure "Request Entity Too Large"⟩, []) ∧
    runOps [("k", ([9], "image/png"))]
        (handle_upload container_url 5 ⟨some ⟨"x.txt", some "image/png", [1]⟩⟩
          ⟨2025, 1, 2, 3, 4, 5⟩ (Except.ok ())).2 =
      [("k", ([9], "image/png"))] :=
  ⟨(c8_rejections_no_store_write container_url (MAX_FILE_SIZE + 1)
      ⟨some ⟨"x.png", some "image/png", [1]⟩⟩ ⟨2025, 1, 2, 3, 4, 5⟩ (Except.ok ())
      []).1 (by decide),
   (c8_rejections_no_store_write container_url 5 ⟨some ⟨"x.txt", some "image/png", [1]⟩⟩
      ⟨2025, 1, 2, 3, 4, 5⟩ (Except.ok ()) [("k", ([9], "image/png"))]).2.2.2
      (Or.inl (by decide))⟩

/-- C9 counterexample: '(' is printable ASCII, not a path separator, not a
control character and not a dot, and "a(1).png" passes validation, yet
sanitization deletes the '(' (and ')'): sanitization does not strip only path
separators, non-ASCII control characters and leading dots. -/
theorem c9_sanitization_counterexample :
    is_allowed_file "a(1).png" = true ∧
    ('(' ∈ "a(1).png".data) ∧
    (('(' == '/') = false ∧ ('(' == '\\') = false ∧ 32 ≤ ('(').toNat ∧
      ('(').toNat ≤ 126 ∧ ('(' == '.') = false) ∧
    secure_filename "a(1).png" = "a1.png" ∧
    ('(' ∉ (secure_filename "a(1).png").data) := by
  refine ⟨by decide, by decide, by decide, by decide, by decide⟩

/-- The head of a `dropWhile` fails the dropped predicate. -/
theorem head_dropWhile_not {α} (p : α → Bool) :
    ∀ (l : List α) {c : α}, (l.dropWhile p).head? = some c → p c = false
  | [], c, h => by simp [List.dropWhile] at h
  | a :: l, c, h => by
    by_cases ha : p a = true
    · rw [List.dropWhile_cons, if_pos ha] at h
      exact head_dropWhile_not p l h
    · rw [List.dropWhile_cons, if_neg ha] at h
      obtain rfl : a = c := by simpa using h
      simpa using ha

/-- `dropWhile` keeps the last element when it keeps anything. -/
theorem getLast_dropWhile {α} (p : α → Bool) :
    ∀ (l : List α) {c : α}, (l.dropWhile p).getLast? = some c → l.getLast? = some c
  | [], c, h => by simp [List.dropWhile] at h
  | a :: l, c, h => by
    by_cases ha : p a = true
    · rw [List.dropWhile_cons, if_pos ha] at h
      have hl := getLast_dropWhile p l h
      rcases l with _ | ⟨b, l'⟩
      · simp [List.dropWhile] at h
      · rw [List.getLast?_cons_cons]
        exact hl
    · rw [List.dropWhile_cons, if_neg ha] at h
      exact h

/-- The stripped name does not start with '.' or '_'. -/
theorem stripDots_head {l : List Char} {c : Char}
    (h : (stripDotsUnderscores l).head? = some c) : isDotOrUnderscore c = false := by
  unfold stripDotsUnderscores at h
  rw [List.head?_reverse] at h
  have h2 := getLast_dropWhile _ _ h
  rw [← List.head?_reverse, List.reverse_reverse] at h2
  exact head_dropWhile_not _ _ h2

/-- The stripped name does not end with '.' or '_'. -/
theorem stripDots_getLast {l : List Char} {c : Char}
    (h : (stripDotsUnderscores l).getLast? = some c) : isDotOrUnderscore c = false := by
  unfold stripDotsUnderscores at h
  rw [← List.head?_reverse, List.reverse_reverse] at h
  exact head_dropWhile_not _ _ h

/-- Every character of the sanitized name lies in `[A-Za-z0-9_.-]`. -/
theorem safe_of_mem_secure {c : Char} {l : List Char}
    (h : c ∈ secureFilenameChars l) : isSafeKeyChar c = true := by
  simp only [secureFilenameChars, stripDotsUnderscores] at h
  rw [List.mem_reverse] at h
  have h2 := (List.dropWhile_sublist _).subset h
  rw [List.mem_reverse] at h2
  have h3 := (List.dropWhile_sublist _).subset h2
  exact (List.mem_filter.mp h3).2

/-- Filtering by a predicate disjoint from the dropped one commutes with
`dropWhile`. -/
theorem filter_dropWhile {α} {q p : α → Bool} (hpq : ∀ c, q c = true → p c = false) :
    ∀ l : List α, (l.dropWhile p).filter q = l.filter q
  | [] => rfl
  | a :: l => by
    by_cases ha : p a = true
    · have hqa : q a = false := by
        rcases hq : q a with _ | _
        · rfl
        · rw [hpq a hq] at ha
          exact absurd ha (by simp)
      rw [List.dropWhile_cons, if_pos ha, filter_dropWhile hpq l, List.filter_cons,
        if_neg (by simp [hqa])]
    · rw [List.dropWhile_cons, if_neg ha]

/-- Filtering by a predicate excluding '.' and '_' ignores the strip step. -/
theorem filter_stripDots {q : Char → Bool}
    (hq : ∀ c, q c = true → isDotOrUnderscore c = false) (l : List Char) :
    (stripDotsUnderscores l).filter q = l.filter q := by
  unfold stripDotsUnderscores
  rw [List.filter_reverse, filter_dropWhile hq, List.filter_reverse,
    List.reverse_reverse, filter_dropWhile hq]

/-- Filtering past the '_' separators of the join leaves the filtered
pieces. -/
theorem filter_intercalate_underscore {q : Char → Bool} (hq : q '_' = false) :
    ∀ ws : List (List Char),
      (List.intercalate [ '_' ] ws).filter q = (ws.map (List.filter q)).flatten
  | [] => rfl
  | [w] => by
    simp [List.intercalate, List.intersperse_singleton]
  | w :: w' :: ws => by
    have IH := filter_intercalate_underscore hq (w' :: ws)
    unfold List.intercalate at IH ⊢
    rw [List.intersperse_cons₂]
    simp only [List.flatten_cons, List.filter_append, List.map_cons] at IH ⊢
    rw [IH]
    simp [List.filter_cons, hq]

/-- Empty pieces contribute nothing to the flattened filtered pieces. -/
theorem flatten_map_filter_nonempty {α} (q : α → Bool) :
    ∀ W : List (List α),
      ((W.filter (fun w => !w.isEmpty)).map (List.filter q)).flatten =
        (W.map (List.filter q)).flatten
  | [] => rfl
  | w :: W => by
    rcases w with _ | ⟨a, w'⟩
    · simpa using flatten_map_filter_nonempty q W
    · simpa using flatten_map_filter_nonempty q W

/-- Splitting at separators invisible to the filter and flattening back gives
the plain filter. -/
theorem flatten_map_filter_splitOnP {α} {q p : α → Bool}
    (hpq : ∀ c, q c = true → p c = false) :
    ∀ l : List α, ((l.splitOnP p).map (List.filter q)).flatten = l.filter q
  | [] => by simp [List.splitOnP_nil]
  | a :: l => by
    rw [List.splitOnP_cons]
    by_cases ha : p a = true
    · have hqa : q a = false := by
        rcases hq : q a with _ | _
        · rfl
        · rw [hpq a hq] at ha
          exact absurd ha (by simp)
      rw [if_pos ha]
      simp only [List.map_cons, List.flatten_cons, List.filter_nil, List.nil_append]
      rw [flatten_map_filter_splitOnP hpq l, List.filter_cons, if_neg (by simp [hqa])]
    · rw [if_neg ha]
      obtain ⟨w₀, rest, hsplit⟩ : ∃ w₀ rest, l.splitOnP p = w₀ :: rest := by
        rcases hS : l.splitOnP p with _ | ⟨w₀, rest⟩
        · exact absurd hS (List.splitOnP_ne_nil p l)
        · exact ⟨w₀, rest, rfl⟩
      have IH := flatten_map_filter_splitOnP hpq l
      rw [hsplit] at IH
      simp only [List.map_cons, List.flatten_cons] at IH
      rw [hsplit, List.modifyHead_cons]
      simp only [List.map_cons, List.flatten_cons, List.filter_cons]
      by_cases hqa : q a = true
      · rw [if_pos hqa, if_pos hqa]
        simp [IH]
      · rw [if_neg hqa, if_neg hqa]
        exact IH

/-- The '/'-to-space replacement is invisible to a filter excluding both. -/
theorem filter_map_slash {q : Char → Bool} (hsl : q '/' = false) (hsp : q ' ' = false) :
    ∀ l : List Char,
      (l.map (fun c => if c == '/' then ' ' else c)).filter q = l.filter q
  | [] => rfl
  | a :: l => by
    by_cases ha : (a == '/') = true
    · obtain rfl : a = '/' := by simpa using ha
      rw [List.map_cons, if_pos (show ('/' == '/') = true from rfl), List.filter_cons,
        List.filter_cons, if_neg (by simp [hsp]), if_neg (by simp [hsl]),
        filter_map_slash hsl hsp l]
    · simp only [List.map_cons, ha, Bool.false_eq_true, if_false, List.filter_cons]
      rw [filter_map_slash hsl hsp l]

/-- The characters a filter inside the safe class keeps are exactly those it
keeps of the raw filename: sanitization inserts nothing and deletes nothing
the filter accepts. -/
theorem filter_secureFilenameChars {q : Char → Bool}
    (hq_safe : ∀ c, q c = true → isSafeKeyChar c = true)
    (hq_du : ∀ c, q c = true → isDotOrUnderscore c = false)
    (hq_ws : ∀ c, q c = true → isPyWs c = false)
    (hq_us : q '_' = false) (hq_slash : q '/' = false)
    (hq_ascii : ∀ c, q c = true → c.toNat ≤ 127) (l : List Char) :
    (secureFilenameChars l).filter q = l.filter q := by
  have hsp : q ' ' = false := by
    rcases h : q ' ' with _ | _
    · rfl
    · exact absurd (hq_ws ' ' h) (by decide)
  simp only [secureFilenameChars]
  rw [filter_stripDots hq_du, List.filter_filter]
  have hfun : (fun a => q a && isSafeKeyChar a) = q := by
    funext a
    rcases h : q a with _ | _
    · simp
    · simp [hq_safe a h]
  rw [hfun]
  unfold pySplit
  rw [filter_intercalate_underscore hq_us, flatten_map_filter_nonempty,
    flatten_map_filter_splitOnP hq_ws, filter_map_slash hq_slash hsp,
    List.filter_filter]
  have hfun2 : (fun a => q a && decide (a.toNat ≤ 127)) = q := by
    funext a
    rcases h : q a with _ | _
    · simp
    · simp [hq_ascii a h]
  rw [hfun2]

/-- Letters, digits and '-': the characters the amended claim asserts pass
through sanitization verbatim. -/
def isAlnumDash (c : Char) : Bool :=
  (decide (65 ≤ c.toNat) && decide (c.toNat ≤ 90)) ||
  (decide (97 ≤ c.toNat) && decide (c.toNat ≤ 122)) ||
  (decide (48 ≤ c.toNat) && decide (c.toNat ≤ 57)) || c == '-'

/-- A letter, digit or hyphen is in the safe class, is not '.', '_' or
whitespace, and is ASCII. -/
theorem isAlnumDash_conditions (c : Char) (h : isAlnumDash c = true) :
    isSafeKeyChar c = true ∧ isDotOrUnderscore c = false ∧ isPyWs c = false ∧
      c.toNat ≤ 127 := by
  simp only [isAlnumDash, Bool.or_eq_true, Bool.and_eq_true, decide_eq_true_eq,
    beq_iff_eq] at h
  rcases h with ((⟨h1, h2⟩ | ⟨h1, h2⟩) | ⟨h1, h2⟩) | rfl
  · refine ⟨?_, ?_, ?_, by omega⟩
    · simp only [isSafeKeyChar, Bool.or_eq_true, Bool.and_eq_true, decide_eq_true_eq]
      exact Or.inl (Or.inl (Or.inl (Or.inl (Or.inl ⟨h1, h2⟩))))
    · simp only [isDotOrUnderscore, Bool.or_eq_false_iff]
      exact ⟨beq_false_of_toNat_ne (Nat.ne_of_gt (lt_of_lt_of_le (by decide) h1)),
        beq_false_of_toNat_ne (Nat.ne_of_lt (lt_of_le_of_lt h2 (by decide)))⟩
    · simp only [isPyWs, Bool.or_eq_false_iff]
      refine ⟨⟨⟨⟨⟨?_, ?_⟩, ?_⟩, ?_⟩, ?_⟩, ?_⟩ <;>
        exact beq_false_of_toNat_ne (Nat.ne_of_gt (lt_of_lt_of_le (by decide) h1))
  · refine ⟨?_, ?_, ?_, by omega⟩
    · simp only [isSafeKeyChar, Bool.or_eq_true, Bool.and_eq_true, decide_eq_true_eq]
      exact Or.inl (Or.inl (Or.inl (Or.inl (Or.inr ⟨h1, h2⟩))))
    · simp only [isDotOrUnderscore, Bool.or_eq_false_iff]
      exact ⟨beq_false_of_toNat_ne (Nat.ne_of_gt (lt_of_lt_of_le (by decide) h1)),
        beq_false_of_toNat_ne (Nat.ne_of_gt (lt_of_lt_of_le (by decide) h1))⟩
    · simp only [isPyWs, Bool.or_eq_false_iff]
      refine ⟨⟨⟨⟨⟨?_, ?_⟩, ?_⟩, ?_⟩, ?_⟩, ?_⟩ <;>
        exact beq_false_of_toNat_ne (Nat.ne_of_gt (lt_of_lt_of_le (by decide) h1))
  · refine ⟨?_, ?_, ?_, by omega⟩
    · simp only [isSafeKeyChar, Bool.or_eq_true, Bool.and_eq_true, decide_eq_true_eq]
      exact Or.inl (Or.inl (Or.inl (Or.inr ⟨h1, h2⟩)))
    · simp only [isDotOrUnderscore, Bool.or_eq_false_iff]
      exact ⟨beq_false_of_toNat_ne (Nat.ne_of_gt (lt_of_lt_of_le (by decide) h1)),
        beq_false_of_toNat_ne (Nat.ne_of_lt (lt_of_le_of_lt h2 (by decide)))⟩
    · simp only [isPyWs, Bool.or_eq_false_iff]
      refine ⟨⟨⟨⟨⟨?_, ?_⟩, ?_⟩, ?_⟩, ?_⟩, ?_⟩ <;>
        exact beq_false_of_toNat_ne (Nat.ne_of_gt (lt_of_lt_of_le (by decide) h1))
  · exact ⟨by decide, by decide, by decide, by decide⟩

/-- C9 amended: sanitization of an ASCII filename yields a name consisting
only of characters in `[A-Za-z0-9_.-]`, with no leading or trailing '.' or
'_', and it preserves, in order, exactly the letters, digits and hyphens of
the original filename; whitespace and '/' turn into single '_' separators and
every other ASCII character (including printable punctuation such as
parentheses) is dropped.  Non-ASCII filenames are outside this statement:
werkzeug first transliterates them toward ASCII via NFKD normalization, a
step this embedding does not model. -/
theorem c9_sanitization_amended (fn : String)
    (_hascii : ∀ c ∈ fn.data, c.toNat ≤ 127) :
    (∀ c ∈ (secure_filename fn).data, isSafeKeyChar c = true) ∧
    (∀ c, (secure_filename fn).data.head? = some c → isDotOrUnderscore c = false) ∧
    (∀ c, (secure_filename fn).data.getLast? = some c → isDotOrUnderscore c = false) ∧
    (secure_filename fn).data.filter isAlnumDash = fn.data.filter isAlnumDash := by
  refine ⟨?_, ?_, ?_, ?_⟩
  · intro c hc
    exact safe_of_mem_secure hc
  · intro c hc
    exact stripDots_head hc
  · intro c hc
    exact stripDots_getLast hc
  · exact filter_secureFilenameChars
      (fun c h => (isAlnumDash_conditions c h).1)
      (fun c h => (isAlnumDash_conditions c h).2.1)
      (fun c h => (isAlnumDash_conditions c h).2.2.1)
      (by decide) (by decide)
      (fun c h => (isAlnumDash_conditions c h).2.2.2) fn.data

/-- Witness for the amended C9 at "my photo (1).png" (sanitized to
"my_photo_1.png"). -/
theorem c9_sanitization_amended_witness :
    (secure_filename "my photo (1).png").data.filter isAlnumDash =
      "my photo (1).png".data.filter isAlnumDash ∧
    isDotOrUnderscore 'm' = false :=
  ⟨(c9_sanitization_amended "my photo (1).png" (by decide)).2.2.2,
   (c9_sanitization_amended "my photo (1).png" (by decide)).2.1 'm' (by decide)⟩
